import Mathlib

/-! Verification development for the render_borrower loan-submission review
workflow.  The Python sources (submissions/views.py, submissions/parsers.py,
submissions/models.py, users/models.py, users/views.py) are shallowly embedded:
Django model rows become Lean structures, JSON payloads become the inductive
type J, and the view functions become pure state-passing functions from a
submission state (plus the request data) to a response and an updated state.
Mutation-free value semantics is used throughout, so copy.deepcopy is the
identity on the embedded JSON trees.  File and worksheet contents are passed
in explicitly: a worksheet is the list of its rows truncated to the first two
columns (openpyxl iter_rows with min_col 1, max_col 2, values_only), and the
optional ntpd parser is an explicit Except argument standing for either its
parsed result or the exception it raised. -/

namespace RenderBorrower

/-- Role choices of users.models.User.Role. -/
inductive Role where
  | ADMIN
  | BORROWER
  | LENDER
  deriving Repr, DecidableEq

/-- Embedding of users.models.User: the custom role field plus the standard
Django staff and superuser flags used by the role predicates. -/
structure User where
  id : Nat
  role : Role
  is_staff : Bool
  is_superuser : Bool
  deriving Repr, DecidableEq

/-- Property User.is_borrower from users/models.py: role equals BORROWER. -/
def User.is_borrower (u : User) : Bool :=
  u.role == Role.BORROWER

/-- Property User.is_lender from users/models.py: role equals LENDER. -/
def User.is_lender (u : User) : Bool :=
  u.role == Role.LENDER

/-- Embedding of _is_lender_like, defined identically in submissions/views.py
and users/views.py: getattr(user, "is_lender", False) or is_staff or
is_superuser. -/
def is_lender_like (u : User) : Bool :=
  u.is_lender || u.is_staff || u.is_superuser

/-- Embedding of _is_borrower_like from users/views.py:
getattr(user, "is_borrower", False). -/
def is_borrower_like (u : User) : Bool :=
  u.is_borrower

/-- Status choices of submissions.models.Submission.Status. -/
inductive Status where
  | DRAFT
  | IN_REVIEW
  | REVISION_REQUIRED
  | FINALIZED
  deriving Repr, DecidableEq

/-- DataType choices of submissions.models.SubmissionField.DataType. -/
inductive DataType where
  | TEXT
  | NUMBER
  deriving Repr, DecidableEq

/-- EventType choices of submissions.models.SubmissionEvent.EventType. -/
inductive EventType where
  | COMMENT
  | REQUEST
  | STATUS_CHANGE
  deriving Repr, DecidableEq

/-- Embedding of a submissions.models.SubmissionEvent row (the submission
foreign key is implicit: events live inside their submission state). -/
structure Event where
  actorId : Nat
  event_type : EventType
  from_status : Option Status
  to_status : Option Status
  field_name : String
  message : String
  deriving Repr, DecidableEq

/-- Embedding of a submissions.models.Upload row. -/
structure UploadRow where
  fileName : String
  original_name : String
  deriving Repr, DecidableEq

/-- Embedding of one entry of Submission.normalized_records as produced by
parsers.parse_with_ntpd: a key path, a label path, and a value that is either
a string or JSON null (parsers._stringify_value returns None or str). -/
structure NRecord where
  key_path : List String
  label_path : List String
  value : Option String
  deriving Repr, DecidableEq

/-- Embedding of a submissions.models.SubmissionField row. -/
structure FieldSpec where
  name : String
  label : String
  value : String
  data_type : DataType
  order : Nat
  deriving Repr, DecidableEq

/-- JSON values, the carrier of Submission.normalized_payload (a JSONField).
Objects are association lists in insertion order, matching Python dicts. -/
inductive J where
  | null : J
  | bool (b : Bool) : J
  | num (n : Int) : J
  | str (s : String) : J
  | arr (elems : List J) : J
  | obj (entries : List (String × J)) : J
  deriving Repr

/-- Python truthiness of a JSON value (None, 0, "", [], {} are falsy). -/
def jTruthy : J → Bool
  | J.null => false
  | J.bool b => b
  | J.num n => n != 0
  | J.str s => !s.isEmpty
  | J.arr xs => !xs.isEmpty
  | J.obj entries => !entries.isEmpty

/-- Embedding of a submissions.models.Submission row together with its related
fields, uploads and events.  The normalized_payload / normalized_records
JSONFields are added by migration 0009; normalized_overrides is the flat
key-to-string override map written by edit_submission_data. -/
structure SubmissionState where
  borrowerId : Nat
  title : String
  description : String
  status : Status
  normalized_payload : J
  normalized_records : List NRecord
  normalized_overrides : List (String × String)
  fields : List FieldSpec
  uploads : List UploadRow
  events : List Event

/-- HTTP responses a view can produce. -/
inductive Response where
  | forbidden (msg : String)
  | redirect (target : String)
  | rendered (template : String)
  | notFound
  deriving Repr, DecidableEq

/-- Request methods. -/
inductive Method where
  | GET
  | POST
  deriving Repr, DecidableEq

/-- Lookup in an association list (first matching key), Python dict.get. -/
def alookup {α : Type} : List (String × α) → String → Option α
  | [], _ => none
  | (k', v) :: rest, k => if k' = k then some v else alookup rest k

/-- Update in an association list: replace the first entry with the key, or
append a new entry, Python dict item assignment. -/
def aset {α : Type} : List (String × α) → String → α → List (String × α)
  | [], k, v => [(k, v)]
  | (k', v') :: rest, k, v => if k' = k then (k, v) :: rest else (k', v') :: aset rest k v

/-- Python cur.get(key) followed by the "is None" test of _set_nested_value: a
stored JSON null is indistinguishable from a missing key. -/
def pyGet (entries : List (String × J)) (k : String) : Option J :=
  match alookup entries k with
  | some J.null => none
  | some v => some v
  | none => none

/-- Embedding of _set_nested_value from submissions/views.py: walk the
intermediate path segments, aborting if the current value is not a dict or
the segment is missing (or null); finally assign at the last segment when the
reached value is a dict.  The in-place mutation of the source becomes
functional update of the tree. -/
def set_nested_value (data : J) (path : List String) (v : J) : J :=
  match path with
  | [] => data
  | [k] =>
    match data with
    | J.obj entries => J.obj (aset entries k v)
    | _ => data
  | k :: rest =>
    match data with
    | J.obj entries =>
      (match pyGet entries k with
       | none => J.obj entries
       | some c => J.obj (aset entries k (set_nested_value c rest v)))
    | _ => data

/-- Embedding of _clone_payload: copy.deepcopy (with a json round-trip as
fallback), which is the identity under value semantics. -/
def clone_payload (payload : J) : J := payload

/-- Python str.split(sep) for a one-character separator, on character
lists. -/
def splitChars (sep : Char) : List Char → List (List Char)
  | [] => [[]]
  | c :: rest =>
    let r := splitChars sep rest
    if c == sep then [] :: r
    else
      match r with
      | h :: t => (c :: h) :: t
      | [] => [[c]]

/-- Path splitting of _apply_overrides_to_payload: split the override key on
the pipe character and drop empty segments. -/
def splitPath (key : String) : List String :=
  ((splitChars '|' key.data).map String.mk).filter (fun seg => !seg.isEmpty)

/-- Embedding of _apply_overrides_to_payload from submissions/views.py. -/
def apply_overrides_to_payload (payload : J) (overrides : List (String × J)) : J :=
  if overrides.isEmpty then payload
  else
    overrides.foldl
      (fun acc kv =>
        let path := splitPath kv.1
        if path.isEmpty then acc else set_nested_value acc path kv.2)
      (clone_payload payload)

/-- Embedding of _get_effective_payload from submissions/views.py.  Override
values are strings in the stored JSON map, injected into the tree as J.str. -/
def get_effective_payload (s : SubmissionState) : J :=
  let payload := if jTruthy s.normalized_payload then s.normalized_payload else J.obj []
  let overrides := s.normalized_overrides
  if overrides ≠ [] ∧ jTruthy payload = true then
    apply_overrides_to_payload payload (overrides.map (fun kv => (kv.1, J.str kv.2)))
  else payload

/-- Embedding of _key_path_to_str: join the path with the pipe character
(empty string for an empty path). -/
def key_path_to_str (path : List String) : String :=
  match path with
  | [] => ""
  | _ => String.intercalate "|" path

/-- Embedding of _apply_overrides_to_records from submissions/views.py. -/
def apply_overrides_to_records (records : List NRecord) (overrides : List (String × String)) :
    List NRecord :=
  if overrides.isEmpty then records
  else
    records.map (fun r =>
      { key_path := r.key_path
        label_path := r.label_path
        value :=
          match alookup overrides (key_path_to_str r.key_path) with
          | some v => some v
          | none => r.value })

/-- Python whitespace characters recognised by str.strip and the regex
class backslash-s (ASCII range). -/
def isPySpace (c : Char) : Bool :=
  c == ' ' || c == '\t' || c == '\n' || c == '\r' || c == '\x0b' || c == '\x0c'

/-- Removal of leading characters satisfying p. -/
def lstripBy (p : Char → Bool) (cs : List Char) : List Char := cs.dropWhile p

/-- Removal of trailing characters satisfying p. -/
def rstripBy (p : Char → Bool) (cs : List Char) : List Char :=
  (cs.reverse.dropWhile p).reverse

/-- Python str.strip() on a character list. -/
def stripChars (cs : List Char) : List Char :=
  rstripBy isPySpace (lstripBy isPySpace cs)

/-- Python str.strip() on strings. -/
def pyStrip (s : String) : String := String.mk (stripChars s.data)

/-- Replacement pass of re.sub for one-or-more whitespace to underscore: the
flag records whether we are inside a whitespace run already replaced. -/
def subWsAux : List Char → Bool → List Char
  | [], _ => []
  | c :: rest, inRun =>
    if isPySpace c then
      if inRun then subWsAux rest true else '_' :: subWsAux rest true
    else c :: subWsAux rest false

/-- Replacement of every maximal whitespace run by a single underscore. -/
def subWs (cs : List Char) : List Char := subWsAux cs false

/-- Embedding of _auto_name_from_label from submissions/views.py: strip the
label, then replace each whitespace run with an underscore. -/
def auto_name_from_label (label : String) : String :=
  String.mk (subWs (stripChars label.data))

/-- Python value_str.replace(",", ""): drop every comma. -/
def removeCommas (s : String) : String :=
  String.mk (s.data.filter (fun c => c != ','))

/-- Values a worksheet cell can hold in this model: text, integers and
booleans, with Python str() rendering.  A float-free model: the claims under
study only need the stringified form of cells. -/
inductive Cell where
  | str (v : String)
  | int (n : Int)
  | bool (b : Bool)
  deriving Repr, DecidableEq

/-- Python str() of a cell value. -/
def Cell.pyStr : Cell → String
  | .str v => v
  | .int n => toString n
  | .bool true => "True"
  | .bool false => "False"

/-- Case-insensitive keyword match: consume the keyword (given lowercase)
from the front, returning the remainder on success. -/
def matchCI : List Char → List Char → Option (List Char)
  | cs, [] => some cs
  | [], _ :: _ => none
  | c :: cs, k :: ks => if c.toLower == k then matchCI cs ks else none

/-- Exponent part of a decimal numeric string: empty, or e / E with optional
sign and at least one digit. -/
def decExpOk : List Char → Bool
  | [] => true
  | c :: rest =>
    if c.toLower == 'e' then
      let rest2 :=
        match rest with
        | s :: r => if s == '+' || s == '-' then r else s :: r
        | [] => []
      !rest2.isEmpty && rest2.all Char.isDigit
    else false

/-- Mantissa (with optional exponent) of a decimal numeric string: an integer
part, an optional dot with fractional part, at least one digit overall. -/
def decMantissaOk (cs : List Char) : Bool :=
  let int_digits := cs.takeWhile Char.isDigit
  let rest1 := cs.dropWhile Char.isDigit
  match rest1 with
  | '.' :: rest2 =>
    let frac_digits := rest2.takeWhile Char.isDigit
    let rest3 := rest2.dropWhile Char.isDigit
    (!int_digits.isEmpty || !frac_digits.isEmpty) && decExpOk rest3
  | _ => !int_digits.isEmpty && decExpOk rest1

/-- Body of a decimal numeric string after the optional sign: a mantissa, an
infinity, or a (possibly signaling) NaN with optional diagnostic digits. -/
def decBodyOk (cs : List Char) : Bool :=
  match matchCI cs ['i', 'n', 'f'] with
  | some rest =>
    rest.isEmpty ||
      (match matchCI rest ['i', 'n', 'i', 't', 'y'] with
       | some rest2 => rest2.isEmpty
       | none => false)
  | none =>
    match matchCI cs ['n', 'a', 'n'] with
    | some rest => rest.all Char.isDigit
    | none =>
      match matchCI cs ['s', 'n', 'a', 'n'] with
      | some rest => rest.all Char.isDigit
      | none => decMantissaOk cs

/-- Model of the trial parse Decimal(text) succeeding on a string: CPython
strips whitespace, removes underscores, then matches the decimal numeric
string grammar (sign, then mantissa with optional exponent, or Infinity/Inf,
or [s]NaN with diagnostic digits, case-insensitively).  ASCII digits model
the digit class; Excel-originated strings are ASCII-rendered. -/
def decimalParsable (s : String) : Bool :=
  let cs := (stripChars s.data).filter (fun c => c != '_')
  let body :=
    match cs with
    | c :: rest => if c == '+' || c == '-' then rest else c :: rest
    | [] => []
  decBodyOk body

/-- Loop of extract_fields_from_upload with the running order counter, which
is advanced only when a row produces a field. -/
def extractFieldsAux : List (Option Cell × Option Cell) → Nat → List FieldSpec
  | [], _ => []
  | (label_cell, value_cell) :: rest, order =>
    match label_cell, value_cell with
    | some lc, some vc =>
      let label_str := pyStrip (Cell.pyStr lc)
      let value_str := pyStrip (Cell.pyStr vc)
      let name := auto_name_from_label label_str
      let data_type :=
        if decimalParsable (removeCommas value_str) then DataType.NUMBER else DataType.TEXT
      { name := name, label := label_str, value := value_str,
        data_type := data_type, order := order } :: extractFieldsAux rest (order + 1)
    | _, _ => extractFieldsAux rest order

/-- Embedding of extract_fields_from_upload from submissions/views.py: the
upload is given as the rows of the first worksheet restricted to the first
two columns (label cell, value cell), a missing cell being none. -/
def extract_fields_from_upload (rows : List (Option Cell × Option Cell)) : List FieldSpec :=
  extractFieldsAux rows 1

/-- Model of Python enumerate(xs, start=i) followed by a map. -/
def enumFrom {α β : Type} (f : Nat → α → β) : Nat → List α → List β
  | _, [] => []
  | i, a :: rest => f i a :: enumFrom f (i + 1) rest

/-- Loop of _records_to_field_specs with the 1-based index. -/
def recordsToFieldSpecsAux : List NRecord → Nat → List FieldSpec
  | [], _ => []
  | r :: rest, idx =>
    let key_tokens := r.key_path.filter (fun t => !t.isEmpty)
    let label_tokens := r.label_path.filter (fun t => !t.isEmpty)
    let value_str :=
      match r.value with
      | none => ""
      | some sv => sv
    let data_type :=
      if decimalParsable (removeCommas value_str) then DataType.NUMBER else DataType.TEXT
    { name := if key_tokens.isEmpty then "field_" ++ toString idx
              else String.intercalate "." key_tokens,
      label := if label_tokens.isEmpty then "Field " ++ toString idx
               else String.intercalate " / " label_tokens,
      value := value_str, data_type := data_type,
      order := idx } :: recordsToFieldSpecsAux rest (idx + 1)

/-- Embedding of _records_to_field_specs from submissions/views.py. -/
def records_to_field_specs (records : List NRecord) : List FieldSpec :=
  recordsToFieldSpecsAux records 1

/-- Python "value or default" on strings: the default when value is empty. -/
def orDefault (v d : String) : String := if v = "" then d else v

/-- Embedding of _rebuild_submission_fields from submissions/views.py: delete
the existing fields and bulk-create rows from the record field specs, with
the falsy-value defaults of the list comprehension. -/
def rebuild_submission_fields (s : SubmissionState) (records : List NRecord) : SubmissionState :=
  let specs := records_to_field_specs records
  { s with
    fields :=
      enumFrom
        (fun idx spec =>
          { name := orDefault spec.name ("field_" ++ toString idx)
            label := orDefault spec.label ("Field " ++ toString idx)
            value := orDefault spec.value ""
            data_type := spec.data_type
            order := if spec.order = 0 then idx else spec.order })
        1 specs }

/-- Embedding of create_fields_from_upload from submissions/views.py.  The
try/except around parse_with_ntpd becomes the Except argument: ok carries the
parsed payload and records, error carries the exception message (either
NTPDParserUnavailable or any other exception, both of which are caught).  The
worksheet rows of the upload feed the fallback extractor. -/
def create_fields_from_upload (s : SubmissionState)
    (parseResult : Except String (J × List NRecord))
    (rows : List (Option Cell × Option Cell)) : SubmissionState :=
  let s0 := { s with fields := [] }
  let parsed :=
    match parseResult with
    | Except.ok pr => pr
    | Except.error _ => (J.obj [], [])
  let normalized_records := parsed.2
  let withFallback :=
    if normalized_records.isEmpty then (J.obj [], extract_fields_from_upload rows)
    else (parsed.1, [])
  let normalized_payload := withFallback.1
  let fallback_field_specs := withFallback.2
  let s1 := { s0 with
    normalized_payload := normalized_payload
    normalized_records := normalized_records }
  if normalized_records.isEmpty then
    { s1 with
      fields :=
        enumFrom
          (fun idx spec =>
            { name := orDefault spec.name ("field_" ++ toString idx)
              label := orDefault spec.label ("Field " ++ toString idx)
              value := orDefault spec.value ""
              data_type := spec.data_type
              order := if spec.order = 0 then idx else spec.order })
          1 fallback_field_specs }
  else
    let overrides := s.normalized_overrides
    let effective :=
      if overrides.isEmpty then normalized_records
      else apply_overrides_to_records normalized_records overrides
    rebuild_submission_fields s1 effective

/-- POST data of new_submission: validity of the two forms, the bound title
and description, and the cleaned uploaded files (file_1, file_2 slots). -/
structure NewPost where
  formsValid : Bool
  title : String
  description : String
  files : List UploadRow

/-- Embedding of the new_submission view.  A created submission is returned
as some state; the parse outcome and worksheet rows of the first upload feed
create_fields_from_upload. -/
def new_submission (u : User) (method : Method) (post : NewPost)
    (parseResult : Except String (J × List NRecord))
    (rows : List (Option Cell × Option Cell)) : Response × Option SubmissionState :=
  if !u.is_borrower then
    (Response.forbidden "차주만 새로운 심의 신청을 만들 수 있습니다.", none)
  else
    match method with
    | Method.POST =>
      if post.formsValid then
        let sub : SubmissionState :=
          { borrowerId := u.id, title := post.title, description := post.description,
            status := Status.DRAFT, normalized_payload := J.obj [],
            normalized_records := [], normalized_overrides := [], fields := [],
            uploads := post.files,
            events := [{ actorId := u.id, event_type := EventType.STATUS_CHANGE,
                         from_status := none, to_status := some Status.DRAFT,
                         field_name := "general", message := "초기 생성 및 저장" }] }
        match post.files with
        | [] => (Response.redirect "edit_submission", some sub)
        | _ => (Response.redirect "edit_submission",
                some (create_fields_from_upload sub parseResult rows))
      else (Response.rendered "submissions/new_submission.html", none)
    | Method.GET => (Response.rendered "submissions/new_submission.html", none)

/-- POST data of edit_submission: form validity, the bound title and
description, the action button, the cleaned dynamic field values (indexed
like the submission fields; a Decimal value is given stringified), and the
cleaned new uploads. -/
structure EditPost where
  formsValid : Bool
  title : String
  description : String
  action : Option String
  fieldValues : List (Option String)
  newFiles : List UploadRow

/-- Embedding of the edit_submission view. -/
def edit_submission (u : User) (s : SubmissionState) (method : Method) (post : EditPost) :
    Response × SubmissionState :=
  if s.borrowerId ≠ u.id then
    (Response.forbidden "자신의 신청서만 수정할 수 있습니다.", s)
  else if s.status = Status.FINALIZED ∧ method = Method.POST then
    (Response.forbidden "최종확정된 신청서는 더 이상 수정할 수 없습니다.", s)
  else
    match method with
    | Method.POST =>
      if post.formsValid then
        let old_status := s.status
        let s1 := { s with title := post.title, description := post.description }
        let s2 :=
          match post.action with
          | some a =>
            if a = "submit" then { s1 with status := Status.IN_REVIEW }
            else if a = "draft" then { s1 with status := Status.DRAFT }
            else s1
          | none => s1
        let s3 :=
          if old_status ≠ s2.status then
            { s2 with
              events := s2.events ++
                [{ actorId := u.id, event_type := EventType.STATUS_CHANGE,
                   from_status := some old_status, to_status := some s2.status,
                   field_name := "general", message := "차주가 신청서를 수정/제출했습니다." }] }
          else s2
        let s4 := { s3 with
          fields :=
            enumFrom
              (fun idx (f : FieldSpec) =>
                { f with
                  value :=
                    match post.fieldValues.getD idx none with
                    | none => ""
                    | some v => v })
              0 s3.fields }
        let s5 := { s4 with uploads := s4.uploads ++ post.newFiles }
        (Response.redirect "borrower_dashboard", s5)
      else (Response.rendered "submissions/edit_submission.html", s)
    | Method.GET => (Response.rendered "submissions/edit_submission.html", s)

/-- Embedding of the replace_upload_inline view; uploadIdx selects the upload
row of the submission (an out-of-range index is the 404 of
get_object_or_404). -/
def replace_upload_inline (u : User) (s : SubmissionState) (uploadIdx : Nat)
    (method : Method) (file : Option UploadRow) : Response × SubmissionState :=
  if s.uploads.length ≤ uploadIdx then (Response.notFound, s)
  else if s.borrowerId ≠ u.id then
    (Response.forbidden "자신의 파일만 교체할 수 있습니다.", s)
  else if s.status = Status.FINALIZED then
    (Response.forbidden "최종확정된 신청서의 파일은 교체할 수 없습니다.", s)
  else
    match method, file with
    | Method.POST, some f =>
      let s1 := { s with uploads := s.uploads.set uploadIdx f }
      let s2 := { s1 with
        events := s1.events ++
          [{ actorId := u.id, event_type := EventType.COMMENT,
             from_status := none, to_status := none, field_name := "general",
             message := "파일 " ++ f.original_name ++ " 을 교체했습니다." }] }
      (Response.redirect "borrower_dashboard", s2)
    | _, _ => (Response.redirect "borrower_dashboard", s)

/-- POST data of submission_review: the action button, validity of the
SubmissionEventForm, and its cleaned message. -/
structure ReviewPost where
  action : Option String
  formValid : Bool
  message : String

/-- Embedding of the submission_review view. -/
def submission_review (u : User) (s : SubmissionState) (method : Method) (post : ReviewPost) :
    Response × SubmissionState :=
  if !is_lender_like u then (Response.forbidden "대주만 접근할 수 있습니다.", s)
  else
    match method with
    | Method.GET => (Response.rendered "submissions/submission_review.html", s)
    | Method.POST =>
      match post.action with
      | some a =>
        if a = "comment" ∨ a = "request_revision" then
          if post.formValid then
            if a = "request_revision" then
              let old_status := s.status
              let s1 := { s with status := Status.REVISION_REQUIRED }
              let s2 := { s1 with
                events := s1.events ++
                  [{ actorId := u.id, event_type := EventType.REQUEST,
                     from_status := some old_status,
                     to_status := some Status.REVISION_REQUIRED,
                     field_name := "general", message := post.message }] }
              (Response.redirect "submission_review", s2)
            else
              let s2 := { s with
                events := s.events ++
                  [{ actorId := u.id, event_type := EventType.COMMENT,
                     from_status := none, to_status := none,
                     field_name := "general", message := post.message }] }
              (Response.redirect "submission_review", s2)
          else (Response.rendered "submissions/submission_review.html", s)
        else if a = "finalize" then
          let old_status := s.status
          let s1 := { s with status := Status.FINALIZED }
          let s2 := { s1 with
            events := s1.events ++
              [{ actorId := u.id, event_type := EventType.STATUS_CHANGE,
                 from_status := some old_status, to_status := some Status.FINALIZED,
                 field_name := "general", message := "대주가 최종확정했습니다." }] }
          (Response.redirect "submission_review", s2)
        else (Response.rendered "submissions/submission_review.html", s)
      | none => (Response.rendered "submissions/submission_review.html", s)

/-- POST data of edit_submission_data: validity of the formset and the
cleaned (key, value) pairs of its forms, the value already defaulted to the
empty string as in the view. -/
structure DataPost where
  formsetValid : Bool
  forms : List (String × String)

/-- Embedding of the edit_submission_data view. -/
def edit_submission_data (u : User) (s : SubmissionState) (method : Method) (post : DataPost) :
    Response × SubmissionState :=
  if s.borrowerId ≠ u.id then
    (Response.forbidden "차주만 데이터를 수정할 수 있습니다.", s)
  else if s.status = Status.FINALIZED then
    (Response.forbidden "최종확정된 신청서는 수정할 수 없습니다.", s)
  else if s.normalized_records.isEmpty then
    (Response.forbidden "수정 가능한 데이터가 없습니다.", s)
  else
    let base_records := s.normalized_records
    let base_map :=
      base_records.foldl
        (fun m r => aset m (key_path_to_str r.key_path) (r.value.getD "")) []
    match method with
    | Method.POST =>
      if post.formsetValid then
        let new_overrides :=
          post.forms.foldl
            (fun m kv =>
              if kv.2 ≠ (alookup base_map kv.1).getD "" then aset m kv.1 kv.2 else m)
            []
        let s1 := { s with normalized_overrides := new_overrides }
        let effective :=
          if new_overrides.isEmpty then base_records
          else apply_overrides_to_records base_records new_overrides
        let s2 := rebuild_submission_fields s1 effective
        (Response.redirect "edit_submission_data", s2)
      else (Response.rendered "submissions/submission_data_edit.html", s)
    | Method.GET => (Response.rendered "submissions/submission_data_edit.html", s)

/-- Claim-side predicate for C1: every intermediate path segment, starting
from the payload, resolves to an existing dict entry (so the final container
reached is a dict). -/
def parentIsDict : J → List String → Bool
  | J.obj _, [] => true
  | J.obj entries, k :: rest =>
    (match alookup entries k with
     | some c => parentIsDict c rest
     | none => false)
  | _, _ => false

/-- Claim-side replacement for C1: write the value at the path, descending
through the existing dict entries. -/
def writeAtPath (data : J) (path : List String) (v : J) : J :=
  match path with
  | [] => data
  | [k] =>
    match data with
    | J.obj entries => J.obj (aset entries k v)
    | _ => data
  | k :: rest =>
    match data with
    | J.obj entries =>
      (match alookup entries k with
       | some c => J.obj (aset entries k (writeAtPath c rest v))
       | none => J.obj entries)
    | _ => data

/-- Claim-side description of applying one override for C1: split the key on
the pipe character; the value at that path is replaced exactly when every
intermediate segment resolves to an existing dict entry, and otherwise the
tree is left unchanged. -/
def specApplyOverride (acc : J) (key : String) (v : J) : J :=
  let path := splitPath key
  if path.isEmpty then acc
  else if parentIsDict acc path.dropLast then writeAtPath acc path v else acc

/-- Concrete worksheet rows used by witnesses: one row with a label and the
numeric text "1,234". -/
def sampleNumberRows : List (Option Cell × Option Cell) :=
  [(some (Cell.str "매출"), some (Cell.str "1,234"))]

/-- Concrete field produced by the extractor on sampleNumberRows. -/
def sampleNumberField : FieldSpec :=
  { name := "매출", label := "매출", value := "1,234",
    data_type := DataType.NUMBER, order := 1 }

/-- Concrete borrower used by witnesses. -/
def borrowerUser : User :=
  { id := 1, role := Role.BORROWER, is_staff := false, is_superuser := false }

/-- Concrete lender used by witnesses. -/
def lenderUser : User :=
  { id := 2, role := Role.LENDER, is_staff := false, is_superuser := false }

/-- Concrete user with the ADMIN role and no staff or superuser flag, used
by witnesses: neither borrower-like nor lender-like. -/
def adminRoleUser : User :=
  { id := 3, role := Role.ADMIN, is_staff := false, is_superuser := false }

/-- Concrete submission of borrowerUser with one upload, used by
witnesses. -/
def sampleSub (st : Status) : SubmissionState :=
  { borrowerId := 1, title := "2024 3Q", description := "", status := st,
    normalized_payload := J.obj [], normalized_records := [],
    normalized_overrides := [], fields := [],
    uploads := [{ fileName := "f.xlsx", original_name := "f.xlsx" }], events := [] }

/-- Concrete submission with a single record whose stored value is JSON
null and a pre-existing override, used to probe edit_submission_data. -/
def cxSub : SubmissionState :=
  { borrowerId := 1, title := "t", description := "", status := Status.DRAFT,
    normalized_payload := J.obj [],
    normalized_records := [{ key_path := ["a"], label_path := ["A"], value := none }],
    normalized_overrides := [("a", "x")], fields := [], uploads := [], events := [] }

/-- Concrete submission with two string-valued records, used by the witness
of the override-saving theorem. -/
def dataSub : SubmissionState :=
  { borrowerId := 1, title := "t", description := "", status := Status.DRAFT,
    normalized_payload := J.obj [],
    normalized_records :=
      [{ key_path := ["a"], label_path := ["A"], value := some "1" },
       { key_path := ["b"], label_path := ["B"], value := some "2" }],
    normalized_overrides := [], fields := [], uploads := [], events := [] }

/-- Base-map entry of one record in edit_submission_data: its key string and
its base value, str(rec.get("value") or ""). -/
def baseEntry (r : NRecord) : String × String :=
  (key_path_to_str r.key_path, r.value.getD "")

/-- Claim-side projection for C4: the rows whose label cell and value cell
are both present. -/
def keptCells (rows : List (Option Cell × Option Cell)) : List (Cell × Cell) :=
  rows.filterMap
    (fun rc =>
      match rc with
      | (some lc, some vc) => some (lc, vc)
      | _ => none)

/-! Shared helper lemmas. -/

theorem aset_lookup_self {α : Type} (l : List (String × α)) (k : String) (v : α)
    (h : alookup l k = some v) : aset l k v = l := by
  induction l with
  | nil => simp [alookup] at h
  | cons kv rest ih =>
    cases kv with
    | mk k' v' =>
      by_cases hk : k' = k
      · simp [alookup, hk] at h
        simp [aset, hk, h]
      · simp [alookup, hk] at h
        simp [aset, hk, ih h]

theorem parentIsDict_null (l : List String) : parentIsDict J.null l = false := by
  cases l <;> rfl

theorem parentIsDict_bool (b : Bool) (l : List String) : parentIsDict (J.bool b) l = false := by
  cases l <;> rfl

theorem parentIsDict_num (n : Int) (l : List String) : parentIsDict (J.num n) l = false := by
  cases l <;> rfl

theorem parentIsDict_str (s : String) (l : List String) : parentIsDict (J.str s) l = false := by
  cases l <;> rfl

theorem parentIsDict_arr (xs : List J) (l : List String) : parentIsDict (J.arr xs) l = false := by
  cases l <;> rfl

theorem set_nested_value_eq_spec (path : List String) (data : J) (v : J) (h : path ≠ []) :
    set_nested_value data path v =
      if parentIsDict data path.dropLast then writeAtPath data path v else data := by
  induction path generalizing data with
  | nil => exact absurd rfl h
  | cons k rest ih =>
    cases rest with
    | nil =>
      cases data <;> simp [set_nested_value, parentIsDict, writeAtPath]
    | cons k' rest' =>
      cases data with
      | obj entries =>
        simp only [set_nested_value, List.dropLast]
        cases hl : alookup entries k with
        | none => simp [pyGet, hl, parentIsDict]
        | some c =>
          cases c with
          | null => simp [pyGet, hl, parentIsDict, parentIsDict_null]
          | bool b =>
            simp only [pyGet, hl, parentIsDict]
            rw [ih _ (List.cons_ne_nil _ _)]
            by_cases hp : parentIsDict (J.bool b) (k' :: rest').dropLast = true
            · simp [parentIsDict_bool] at hp
            · simp only [Bool.not_eq_true] at hp
              simp [hp, aset_lookup_self entries k _ hl]
          | num n =>
            simp only [pyGet, hl, parentIsDict]
            rw [ih _ (List.cons_ne_nil _ _)]
            by_cases hp : parentIsDict (J.num n) (k' :: rest').dropLast = true
            · simp [parentIsDict_num] at hp
            · simp only [Bool.not_eq_true] at hp
              simp [hp, aset_lookup_self entries k _ hl]
          | str sv =>
            simp only [pyGet, hl, parentIsDict]
            rw [ih _ (List.cons_ne_nil _ _)]
            by_cases hp : parentIsDict (J.str sv) (k' :: rest').dropLast = true
            · simp [parentIsDict_str] at hp
            · simp only [Bool.not_eq_true] at hp
              simp [hp, aset_lookup_self entries k _ hl]
          | arr xs =>
            simp only [pyGet, hl, parentIsDict]
            rw [ih _ (List.cons_ne_nil _ _)]
            by_cases hp : parentIsDict (J.arr xs) (k' :: rest').dropLast = true
            · simp [parentIsDict_arr] at hp
            · simp only [Bool.not_eq_true] at hp
              simp [hp, aset_lookup_self entries k _ hl]
          | obj sub =>
            simp only [pyGet, hl, parentIsDict]
            rw [ih _ (List.cons_ne_nil _ _)]
            by_cases hp : parentIsDict (J.obj sub) (k' :: rest').dropLast = true
            · simp [hp, writeAtPath, hl]
            · simp only [Bool.not_eq_true] at hp
              simp [hp, aset_lookup_self entries k _ hl]
      | null => simp [set_nested_value, parentIsDict]
      | bool b => simp [set_nested_value, parentIsDict]
      | num n => simp [set_nested_value, parentIsDict]
      | str sv => simp [set_nested_value, parentIsDict]
      | arr xs => simp [set_nested_value, parentIsDict]

theorem foldl_congr_fun {α β : Type} (f g : α → β → α) (l : List β) (a : α)
    (h : ∀ acc b, f acc b = g acc b) : l.foldl f a = l.foldl g a := by
  induction l generalizing a with
  | nil => rfl
  | cons b rest ih => simp only [List.foldl_cons, h, ih]

/-- C1: for a submission with a non-empty normalized_payload dict and a
non-empty normalized_overrides map, _get_effective_payload merges the flat
override map onto the payload tree: each override key is split on the pipe
character into path segments, and the value at that path is replaced by the
override value exactly when every intermediate segment resolves to an
existing dict entry (parentIsDict); a path whose prefix is missing or leads
to a non-dict leaves the tree unchanged (specApplyOverride).  The embedding
uses value semantics, under which the deep copy taken by
_apply_overrides_to_payload makes mutation of the stored payload impossible:
get_effective_payload is a pure function of the state and returns no updated
state. -/
theorem get_effective_payload_merges_by_path (s : SubmissionState)
    (entries : List (String × J)) (hpay : s.normalized_payload = J.obj entries)
    (hne : entries ≠ []) (hov : s.normalized_overrides ≠ []) :
    get_effective_payload s =
      s.normalized_overrides.foldl
        (fun acc kv => specApplyOverride acc kv.1 (J.str kv.2)) s.normalized_payload := by
  have htr : jTruthy (J.obj entries) = true := by
    simp [jTruthy, List.isEmpty_eq_false.mpr hne]
  unfold get_effective_payload
  rw [hpay]
  simp only [htr, if_true]
  rw [if_pos ⟨hov, trivial⟩]
  unfold apply_overrides_to_payload
  have hmne : (s.normalized_overrides.map (fun kv => (kv.1, J.str kv.2))).isEmpty = false := by
    cases hcase : s.normalized_overrides with
    | nil => exact absurd hcase hov
    | cons kv rest => simp [hcase]
  rw [hmne]
  simp only [Bool.false_eq_true, if_false, clone_payload, List.foldl_map]
  apply foldl_congr_fun
  intro acc kv
  simp only [specApplyOverride]
  cases hsp : (splitPath kv.1).isEmpty with
  | true => simp [hsp]
  | false =>
    simp only [hsp, Bool.false_eq_true, if_false]
    exact set_nested_value_eq_spec _ _ _ (List.isEmpty_eq_false.mp hsp)

/-- Witness for C1 at a concrete submission: payload {"a": {"b": 1}, "c": 2}
with overrides {"a|b": "9", "a|b|z": "x", "missing|k": "y"}: the first
override lands, the second dies on a non-dict intermediate, the third on a
missing prefix. -/
theorem get_effective_payload_merges_by_path_witness :
    get_effective_payload
        { borrowerId := 1, title := "t", description := "", status := Status.DRAFT,
          normalized_payload := J.obj [("a", J.obj [("b", J.num 1)]), ("c", J.num 2)],
          normalized_records := [], normalized_overrides :=
            [("a|b", "9"), ("a|b|z", "x"), ("missing|k", "y")],
          fields := [], uploads := [], events := [] }
      = J.obj [("a", J.obj [("b", J.str "9")]), ("c", J.num 2)] :=
  (get_effective_payload_merges_by_path _
      [("a", J.obj [("b", J.num 1)]), ("c", J.num 2)] rfl
      (List.cons_ne_nil _ _) (List.cons_ne_nil _ _)).trans (by rfl)

/-- C7: the lender-like predicate holds exactly when the role is LENDER or
the staff flag or superuser flag is set; the borrower-like predicate holds
exactly when the role is BORROWER, and the staff and superuser flags play no
part in it. -/
theorem role_predicate_characterization (u : User) :
    (is_lender_like u = true ↔
      (u.role = Role.LENDER ∨ u.is_staff = true ∨ u.is_superuser = true)) ∧
    (is_borrower_like u = true ↔ u.role = Role.BORROWER) ∧
    (∀ st su : Bool,
      is_borrower_like { u with is_staff := st, is_superuser := su } = is_borrower_like u) := by
  refine ⟨?_, ?_, ?_⟩
  · simp [is_lender_like, User.is_lender, Bool.or_eq_true, beq_iff_eq, or_assoc]
  · simp [is_borrower_like, User.is_borrower, beq_iff_eq]
  · intro st su
    rfl

/-- C2: when the ntpd parser raises (unavailability or any other exception),
create_fields_from_upload returns normally, stores an empty
normalized_payload and empty normalized_records, and creates the submission
fields from the simple extractor applied to the worksheet rows (with the
falsy-value defaults of the creation loop).  Totality of the embedded
function is the non-propagation of the error. -/
theorem create_fields_fallback_on_parser_error (s : SubmissionState) (msg : String)
    (rows : List (Option Cell × Option Cell)) :
    (create_fields_from_upload s (Except.error msg) rows).normalized_payload = J.obj [] ∧
    (create_fields_from_upload s (Except.error msg) rows).normalized_records = [] ∧
    (create_fields_from_upload s (Except.error msg) rows).fields =
      enumFrom
        (fun idx spec =>
          { name := orDefault spec.name ("field_" ++ toString idx)
            label := orDefault spec.label ("Field " ++ toString idx)
            value := orDefault spec.value ""
            data_type := spec.data_type
            order := if spec.order = 0 then idx else spec.order })
        1 (extract_fields_from_upload rows) := by
  unfold create_fields_from_upload
  simp

theorem extractFieldsAux_data_type (rows : List (Option Cell × Option Cell)) (n : Nat) :
    ∀ f ∈ extractFieldsAux rows n,
      (f.data_type = DataType.NUMBER ↔ decimalParsable (removeCommas f.value) = true) := by
  induction rows generalizing n with
  | nil =>
    intro f hf
    simp [extractFieldsAux] at hf
  | cons rc rest ih =>
    rcases rc with ⟨lc, vc⟩
    intro f hf
    cases lc with
    | none => exact ih n f (by simpa [extractFieldsAux] using hf)
    | some c =>
      cases vc with
      | none => exact ih n f (by simpa [extractFieldsAux] using hf)
      | some cv =>
        simp only [extractFieldsAux, List.mem_cons] at hf
        rcases hf with hf | hf
        · subst hf
          cases hb : decimalParsable (removeCommas (pyStrip cv.pyStr)) <;> simp [hb]
        · exact ih (n + 1) f hf

theorem recordsToFieldSpecsAux_data_type (records : List NRecord) (n : Nat) :
    ∀ f ∈ recordsToFieldSpecsAux records n,
      (f.data_type = DataType.NUMBER ↔ decimalParsable (removeCommas f.value) = true) := by
  induction records generalizing n with
  | nil =>
    intro f hf
    simp [recordsToFieldSpecsAux] at hf
  | cons r rest ih =>
    intro f hf
    simp only [recordsToFieldSpecsAux, List.mem_cons] at hf
    rcases hf with hf | hf
    · subst hf
      cases hrv : r.value with
      | none =>
        cases hb : decimalParsable (removeCommas "") <;> simp [hrv, hb]
      | some sv =>
        cases hb : decimalParsable (removeCommas sv) <;> simp [hrv, hb]
    · exact ih (n + 1) f hf

/-- C3: for every extracted field, the stored data_type is NUMBER exactly
when the stringified stored value, with all commas removed, passes the
Decimal trial parse, and TEXT otherwise; the same rule governs both the
simple extractor and the conversion of ntpd records to field specs. -/
theorem data_type_number_iff_decimal_trial (rows : List (Option Cell × Option Cell))
    (records : List NRecord) :
    (∀ f ∈ extract_fields_from_upload rows,
      (f.data_type = DataType.NUMBER ↔ decimalParsable (removeCommas f.value) = true)) ∧
    (∀ f ∈ records_to_field_specs records,
      (f.data_type = DataType.NUMBER ↔ decimalParsable (removeCommas f.value) = true)) :=
  ⟨extractFieldsAux_data_type rows 1, recordsToFieldSpecsAux_data_type records 1⟩

/-- Witness for C3 on a one-row worksheet holding a label and the numeric
text "1,234". -/
theorem data_type_number_iff_decimal_trial_witness :
    sampleNumberField ∈ extract_fields_from_upload sampleNumberRows ∧
    (sampleNumberField.data_type = DataType.NUMBER ↔
      decimalParsable (removeCommas sampleNumberField.value) = true) :=
  ⟨by decide,
   (data_type_number_iff_decimal_trial sampleNumberRows []).1 _ (by decide)⟩

theorem dropWhile_idem {α : Type} (p : α → Bool) (l : List α) :
    (l.dropWhile p).dropWhile p = l.dropWhile p := by
  induction l with
  | nil => rfl
  | cons c t ih =>
    cases h : p c with
    | true => simp [List.dropWhile_cons, h, ih]
    | false => simp [List.dropWhile_cons, h]

theorem lstripBy_idem (p : Char → Bool) (l : List Char) :
    lstripBy p (lstripBy p l) = lstripBy p l := dropWhile_idem p l

theorem rstripBy_idem (p : Char → Bool) (l : List Char) :
    rstripBy p (rstripBy p l) = rstripBy p l := by
  simp [rstripBy, List.reverse_reverse, dropWhile_idem]

theorem rstripBy_cons (p : Char → Bool) (c : Char) (t : List Char) :
    rstripBy p (c :: t) =
      if rstripBy p t = [] then (if p c then [] else [c]) else c :: rstripBy p t := by
  simp only [rstripBy, List.reverse_cons]
  rw [List.dropWhile_append]
  by_cases he : List.dropWhile p t.reverse = []
  · rw [if_pos (List.isEmpty_iff.mpr he), if_pos (by simp [he])]
    cases hp : p c with
    | true => simp [List.dropWhile_cons, hp]
    | false => simp [List.dropWhile_cons, hp]
  · rw [if_neg (by simp [List.isEmpty_iff, he]), if_neg (by simp [he]),
      List.reverse_append]
    simp

theorem lstrip_rstrip_comm (p : Char → Bool) (l : List Char) :
    lstripBy p (rstripBy p l) = rstripBy p (lstripBy p l) := by
  induction l with
  | nil => rfl
  | cons c t ih =>
    rw [rstripBy_cons]
    by_cases he : rstripBy p t = []
    · have h2 : rstripBy p (lstripBy p t) = [] := by
        rw [← ih, he]
        rfl
      cases hp : p c with
      | true =>
        rw [if_pos he, if_pos rfl]
        show lstripBy p [] = rstripBy p (lstripBy p (c :: t))
        simp only [lstripBy, List.dropWhile_cons, hp, if_true]
        rw [show List.dropWhile p t = lstripBy p t from rfl, h2]
        rfl
      | false =>
        rw [if_pos he, if_neg (by simp)]
        show lstripBy p [c] = rstripBy p (lstripBy p (c :: t))
        simp only [lstripBy, List.dropWhile_cons, hp, Bool.false_eq_true, if_false]
        rw [rstripBy_cons, if_pos he, if_neg (by simp [hp])]
    · rw [if_neg he]
      cases hp : p c with
      | true =>
        show lstripBy p (c :: rstripBy p t) = rstripBy p (lstripBy p (c :: t))
        simp only [lstripBy, List.dropWhile_cons, hp, if_true]
        exact ih
      | false =>
        show lstripBy p (c :: rstripBy p t) = rstripBy p (lstripBy p (c :: t))
        simp only [lstripBy, List.dropWhile_cons, hp, Bool.false_eq_true, if_false]
        rw [rstripBy_cons, if_neg he]

theorem stripChars_idem (cs : List Char) : stripChars (stripChars cs) = stripChars cs := by
  simp only [stripChars]
  rw [lstrip_rstrip_comm, lstripBy_idem, rstripBy_idem]

theorem auto_name_of_stripped (s : String) :
    auto_name_from_label (pyStrip s) = String.mk (subWs (stripChars s.data)) := by
  show String.mk (subWs (stripChars (stripChars s.data))) = _
  rw [stripChars_idem]

theorem extractFieldsAux_shape (rows : List (Option Cell × Option Cell)) (n : Nat) :
    extractFieldsAux rows n =
      enumFrom
        (fun idx lv =>
          { name := String.mk (subWs (stripChars (Cell.pyStr lv.1).data))
            label := pyStrip (Cell.pyStr lv.1)
            value := pyStrip (Cell.pyStr lv.2)
            data_type :=
              if decimalParsable (removeCommas (pyStrip (Cell.pyStr lv.2))) then DataType.NUMBER
              else DataType.TEXT
            order := idx })
        n (keptCells rows) := by
  induction rows generalizing n with
  | nil => rfl
  | cons rc rest ih =>
    rcases rc with ⟨lc, vc⟩
    cases lc with
    | none => simpa [extractFieldsAux, keptCells, List.filterMap_cons] using ih n
    | some c =>
      cases vc with
      | none => simpa [extractFieldsAux, keptCells, List.filterMap_cons] using ih n
      | some cv =>
        simp only [extractFieldsAux, keptCells, List.filterMap_cons, enumFrom]
        rw [← keptCells]
        refine List.cons_eq_cons.mpr ⟨?_, ih (n + 1)⟩
        rw [← auto_name_of_stripped]

/-- C4: the extractor reads only the first two columns of the first
worksheet (the shape of its input); every row whose label cell and value
cell are both present yields exactly one field whose label and value are the
stripped string forms of the two cells and whose name is the label with
each whitespace run replaced by an underscore; rows with a missing cell are
skipped; and the produced fields carry consecutive order values 1, 2, 3,
... in row order. -/
theorem extract_fields_shape (rows : List (Option Cell × Option Cell)) :
    extract_fields_from_upload rows =
      enumFrom
        (fun idx lv =>
          { name := String.mk (subWs (stripChars (Cell.pyStr lv.1).data))
            label := pyStrip (Cell.pyStr lv.1)
            value := pyStrip (Cell.pyStr lv.2)
            data_type :=
              if decimalParsable (removeCommas (pyStrip (Cell.pyStr lv.2))) then DataType.NUMBER
              else DataType.TEXT
            order := idx })
        1 (keptCells rows) :=
  extractFieldsAux_shape rows 1

/-- C5: on a lender POST, action "request_revision" with a valid message
sets the status to REVISION_REQUIRED and records a REQUEST event from the
prior status to REVISION_REQUIRED; action "finalize" sets the status to
FINALIZED and records a STATUS_CHANGE event with the corresponding statuses;
action "comment" records a COMMENT event and leaves the status unchanged. -/
theorem submission_review_action_effects (u : User) (s : SubmissionState)
    (pRev pFin pCom : ReviewPost)
    (hu : is_lender_like u = true)
    (hRev : pRev.action = some "request_revision") (hRevV : pRev.formValid = true)
    (hFin : pFin.action = some "finalize")
    (hCom : pCom.action = some "comment") (hComV : pCom.formValid = true) :
    ((submission_review u s Method.POST pRev).2.status = Status.REVISION_REQUIRED ∧
      (submission_review u s Method.POST pRev).2.events =
        s.events ++ [{ actorId := u.id, event_type := EventType.REQUEST,
                       from_status := some s.status,
                       to_status := some Status.REVISION_REQUIRED,
                       field_name := "general", message := pRev.message }]) ∧
    ((submission_review u s Method.POST pFin).2.status = Status.FINALIZED ∧
      (submission_review u s Method.POST pFin).2.events =
        s.events ++ [{ actorId := u.id, event_type := EventType.STATUS_CHANGE,
                       from_status := some s.status, to_status := some Status.FINALIZED,
                       field_name := "general", message := "대주가 최종확정했습니다." }]) ∧
    ((submission_review u s Method.POST pCom).2.status = s.status ∧
      (submission_review u s Method.POST pCom).2.events =
        s.events ++ [{ actorId := u.id, event_type := EventType.COMMENT,
                       from_status := none, to_status := none,
                       field_name := "general", message := pCom.message }]) := by
  refine ⟨⟨?_, ?_⟩, ⟨?_, ?_⟩, ?_, ?_⟩ <;>
    simp +decide [submission_review, hu, hRev, hRevV, hFin, hCom, hComV]

/-- Witness for C5: a lender requests a revision on a draft submission and
the status becomes REVISION_REQUIRED. -/
theorem submission_review_action_effects_witness :
    (submission_review lenderUser (sampleSub Status.DRAFT) Method.POST
        ⟨some "request_revision", true, "fix"⟩).2.status = Status.REVISION_REQUIRED :=
  ((submission_review_action_effects lenderUser (sampleSub Status.DRAFT)
      ⟨some "request_revision", true, "fix"⟩ ⟨some "finalize", true, ""⟩
      ⟨some "comment", true, "n"⟩ (by decide) rfl rfl rfl rfl rfl).1).1

/-- C6: on a valid borrower POST to a non-finalized submission, action
"submit" sets the status to IN_REVIEW and action "draft" sets it to DRAFT,
and a STATUS_CHANGE event recording the old and new status is appended if
and only if the status actually changed. -/
theorem edit_submission_action_effects (u : User) (s : SubmissionState)
    (pSub pDra : EditPost)
    (hown : s.borrowerId = u.id) (hfin : s.status ≠ Status.FINALIZED)
    (hSubV : pSub.formsValid = true) (hSubA : pSub.action = some "submit")
    (hDraV : pDra.formsValid = true) (hDraA : pDra.action = some "draft") :
    ((edit_submission u s Method.POST pSub).2.status = Status.IN_REVIEW ∧
      (edit_submission u s Method.POST pSub).2.events =
        s.events ++
          (if s.status = Status.IN_REVIEW then []
           else [{ actorId := u.id, event_type := EventType.STATUS_CHANGE,
                   from_status := some s.status, to_status := some Status.IN_REVIEW,
                   field_name := "general",
                   message := "차주가 신청서를 수정/제출했습니다." }])) ∧
    ((edit_submission u s Method.POST pDra).2.status = Status.DRAFT ∧
      (edit_submission u s Method.POST pDra).2.events =
        s.events ++
          (if s.status = Status.DRAFT then []
           else [{ actorId := u.id, event_type := EventType.STATUS_CHANGE,
                   from_status := some s.status, to_status := some Status.DRAFT,
                   field_name := "general",
                   message := "차주가 신청서를 수정/제출했습니다." }])) := by
  refine ⟨⟨?_, ?_⟩, ?_, ?_⟩ <;>
  · by_cases hst1 : s.status = Status.IN_REVIEW <;>
      by_cases hst2 : s.status = Status.DRAFT <;>
        simp +decide [edit_submission, hown, hfin, hSubV, hSubA, hDraV, hDraA, hst1, hst2]

/-- Witness for C6: a borrower submits a draft and the status becomes
IN_REVIEW. -/
theorem edit_submission_action_effects_witness :
    (edit_submission borrowerUser (sampleSub Status.DRAFT) Method.POST
        ⟨true, "t", "", some "submit", [], []⟩).2.status = Status.IN_REVIEW :=
  ((edit_submission_action_effects borrowerUser (sampleSub Status.DRAFT)
      ⟨true, "t", "", some "submit", [], []⟩ ⟨true, "t", "", some "draft", [], []⟩
      rfl (by decide) rfl rfl rfl rfl).1).1

/-- C8: each permission check denies access with a forbidden response and no
state change: new_submission for a requester who is not a borrower,
edit_submission for a requester who is not the submission borrower, and
submission_review for a requester who is not lender-like. -/
theorem permission_checks_forbidden (u : User) (s : SubmissionState) (method : Method)
    (np : NewPost) (ep : EditPost) (rp : ReviewPost)
    (parseResult : Except String (J × List NRecord))
    (rows : List (Option Cell × Option Cell)) :
    (u.is_borrower = false →
      new_submission u method np parseResult rows =
        (Response.forbidden "차주만 새로운 심의 신청을 만들 수 있습니다.", none)) ∧
    (s.borrowerId ≠ u.id →
      edit_submission u s method ep =
        (Response.forbidden "자신의 신청서만 수정할 수 있습니다.", s)) ∧
    (is_lender_like u = false →
      submission_review u s method rp =
        (Response.forbidden "대주만 접근할 수 있습니다.", s)) := by
  refine ⟨fun h => ?_, fun h => ?_, fun h => ?_⟩
  · simp [new_submission, h]
  · unfold edit_submission
    rw [if_pos h]
  · simp [submission_review, h]

/-- Witness for C8: a user with the ADMIN role and no staff or superuser
flag is denied by all three views. -/
theorem permission_checks_forbidden_witness :
    (new_submission adminRoleUser Method.GET ⟨true, "", "", []⟩ (Except.error "") [] =
      (Response.forbidden "차주만 새로운 심의 신청을 만들 수 있습니다.", none)) ∧
    (edit_submission adminRoleUser (sampleSub Status.DRAFT) Method.GET
        ⟨true, "", "", none, [], []⟩ =
      (Response.forbidden "자신의 신청서만 수정할 수 있습니다.", sampleSub Status.DRAFT)) ∧
    (submission_review adminRoleUser (sampleSub Status.DRAFT) Method.GET ⟨none, true, ""⟩ =
      (Response.forbidden "대주만 접근할 수 있습니다.", sampleSub Status.DRAFT)) := by
  obtain ⟨h1, h2, h3⟩ :=
    permission_checks_forbidden adminRoleUser (sampleSub Status.DRAFT) Method.GET
      ⟨true, "", "", []⟩ ⟨true, "", "", none, [], []⟩ ⟨none, true, ""⟩ (Except.error "") []
  exact ⟨h1 (by decide), h2 (by decide), h3 (by decide)⟩

/-- C9: on a FINALIZED submission, a POST to edit_submission, any request to
replace_upload_inline (on an existing upload of the submission), and any
request to edit_submission_data all return a forbidden response and leave
the whole submission state, including fields, uploads and overrides,
unchanged. -/
theorem finalized_submission_immutable (u : User) (s : SubmissionState)
    (hfin : s.status = Status.FINALIZED) (ep : EditPost) (uploadIdx : Nat)
    (hidx : uploadIdx < s.uploads.length) (file : Option UploadRow)
    (m1 m2 : Method) (dp : DataPost) :
    (∃ msg, edit_submission u s Method.POST ep = (Response.forbidden msg, s)) ∧
    (∃ msg, replace_upload_inline u s uploadIdx m1 file = (Response.forbidden msg, s)) ∧
    (∃ msg, edit_submission_data u s m2 dp = (Response.forbidden msg, s)) := by
  have hle : ¬s.uploads.length ≤ uploadIdx := by omega
  refine ⟨?_, ?_, ?_⟩
  · by_cases hb : s.borrowerId ≠ u.id
    · exact ⟨_, by unfold edit_submission; rw [if_pos hb]⟩
    · exact ⟨_, by unfold edit_submission; rw [if_neg hb, if_pos ⟨hfin, rfl⟩]⟩
  · by_cases hb : s.borrowerId ≠ u.id
    · exact ⟨_, by unfold replace_upload_inline; rw [if_neg hle, if_pos hb]⟩
    · exact ⟨_, by unfold replace_upload_inline; rw [if_neg hle, if_neg hb, if_pos hfin]⟩
  · by_cases hb : s.borrowerId ≠ u.id
    · exact ⟨_, by unfold edit_submission_data; rw [if_pos hb]⟩
    · exact ⟨_, by unfold edit_submission_data; rw [if_neg hb, if_pos hfin]⟩

/-- Witness for C9: the borrower of a FINALIZED submission is refused a POST
to edit_submission with the state returned unchanged. -/
theorem finalized_submission_immutable_witness :
    ∃ msg, edit_submission borrowerUser (sampleSub Status.FINALIZED) Method.POST
        ⟨true, "t", "", some "submit", [], []⟩ =
      (Response.forbidden msg, sampleSub Status.FINALIZED) :=
  (finalized_submission_immutable borrowerUser (sampleSub Status.FINALIZED) rfl
      ⟨true, "t", "", some "submit", [], []⟩ 0 (by decide) none Method.POST Method.POST
      ⟨true, []⟩).1

theorem alookup_eq_none {α : Type} (l : List (String × α)) (k : String)
    (h : k ∉ l.map Prod.fst) : alookup l k = none := by
  induction l with
  | nil => rfl
  | cons kv t ih =>
    obtain ⟨k', v⟩ := kv
    simp only [List.map_cons, List.mem_cons] at h
    push_neg at h
    simp only [alookup]
    rw [if_neg (fun he => h.1 he.symm)]
    exact ih h.2

theorem aset_of_not_mem {α : Type} (l : List (String × α)) (k : String) (v : α)
    (h : k ∉ l.map Prod.fst) : aset l k v = l ++ [(k, v)] := by
  induction l with
  | nil => rfl
  | cons kv t ih =>
    obtain ⟨k', v'⟩ := kv
    simp only [List.map_cons, List.mem_cons] at h
    push_neg at h
    simp only [aset]
    rw [if_neg (fun he => h.1 he.symm)]
    simp [ih h.2]

theorem foldl_aset_fresh {α : Type} (l : List (String × α)) (acc : List (String × α))
    (hnd : (l.map Prod.fst).Nodup)
    (hdis : ∀ kv ∈ l, kv.1 ∉ acc.map Prod.fst) :
    l.foldl (fun m kv => aset m kv.1 kv.2) acc = acc ++ l := by
  induction l generalizing acc with
  | nil => simp
  | cons kv t ih =>
    rw [List.map_cons, List.nodup_cons] at hnd
    have hhead : kv.1 ∉ t.map Prod.fst := hnd.1
    have hnd' : (t.map Prod.fst).Nodup := hnd.2
    simp only [List.foldl_cons]
    rw [aset_of_not_mem acc kv.1 kv.2 (hdis kv (List.mem_cons_self _ _))]
    rw [ih _ hnd'
      (by
        intro kv' hkv'
        have h1 : kv'.1 ∉ acc.map Prod.fst := hdis kv' (List.mem_cons_of_mem _ hkv')
        have h2 : kv'.1 ∈ t.map Prod.fst := List.mem_map_of_mem _ hkv'
        have h3 : kv'.1 ≠ kv.1 := fun he => hhead (he ▸ h2)
        simp [List.map_append, h1, h3])]
    simp

theorem foldl_aset_filter {α : Type} (p : String × α → Prop) [DecidablePred p]
    (l : List (String × α)) (acc : List (String × α))
    (hnd : (l.map Prod.fst).Nodup)
    (hdis : ∀ kv ∈ l, kv.1 ∉ acc.map Prod.fst) :
    l.foldl (fun m kv => if p kv then aset m kv.1 kv.2 else m) acc =
      acc ++ l.filter (fun kv => decide (p kv)) := by
  induction l generalizing acc with
  | nil => simp
  | cons kv t ih =>
    rw [List.map_cons, List.nodup_cons] at hnd
    have hhead : kv.1 ∉ t.map Prod.fst := hnd.1
    have hnd' : (t.map Prod.fst).Nodup := hnd.2
    simp only [List.foldl_cons, List.filter_cons]
    by_cases hp : p kv
    · rw [if_pos hp]
      rw [aset_of_not_mem acc kv.1 kv.2 (hdis kv (List.mem_cons_self _ _))]
      rw [ih _ hnd'
        (by
          intro kv' hkv'
          have h1 : kv'.1 ∉ acc.map Prod.fst := hdis kv' (List.mem_cons_of_mem _ hkv')
          have h2 : kv'.1 ∈ t.map Prod.fst := List.mem_map_of_mem _ hkv'
          have h3 : kv'.1 ≠ kv.1 := fun he => hhead (he ▸ h2)
          simp [List.map_append, h1, h3])]
      simp [hp]
    · rw [if_neg hp]
      rw [ih _ hnd' (fun kv' hkv' => hdis kv' (List.mem_cons_of_mem _ hkv'))]
      simp [hp]

theorem alookup_cons {α : Type} (kv : String × α) (rest : List (String × α)) (k : String) :
    alookup (kv :: rest) k = if kv.1 = k then some kv.2 else alookup rest k := by
  obtain ⟨k', v⟩ := kv
  rfl

theorem alookup_map_get {β α : Type} (pf : β → String × α) (l : List β)
    (hnd : (l.map (fun b => (pf b).1)).Nodup) (i : Fin l.length) :
    alookup (l.map pf) (pf (l.get i)).1 = some (pf (l.get i)).2 := by
  induction l with
  | nil => exact absurd i.isLt (by simp)
  | cons b t ih =>
    rw [List.map_cons, List.nodup_cons] at hnd
    have hhead : (pf b).1 ∉ t.map (fun x => (pf x).1) := hnd.1
    have hnd' : (t.map (fun x => (pf x).1)).Nodup := hnd.2
    cases i using Fin.cases with
    | zero =>
      show alookup ((pf b) :: t.map pf) (pf b).1 = some (pf b).2
      rw [alookup_cons, if_pos rfl]
    | succ j =>
      show alookup ((pf b) :: t.map pf) (pf (t.get j)).1 = some (pf (t.get j)).2
      have hmem : (pf (t.get j)).1 ∈ t.map (fun x => (pf x).1) :=
        List.mem_map_of_mem _ (by exact List.get_mem t j.1 j.2)
      have hne : (pf b).1 ≠ (pf (t.get j)).1 := fun he => hhead (he ▸ hmem)
      rw [alookup_cons, if_neg hne]
      exact ih hnd' j

theorem alookup_filter_get {α : Type} (l : List (String × α)) (p : String × α → Bool)
    (hnd : (l.map Prod.fst).Nodup) (i : Fin l.length) :
    alookup (l.filter p) (l.get i).1 =
      if p (l.get i) then some (l.get i).2 else none := by
  induction l with
  | nil => exact absurd i.isLt (by simp)
  | cons kv t ih =>
    rw [List.map_cons, List.nodup_cons] at hnd
    have hhead : kv.1 ∉ t.map Prod.fst := hnd.1
    have hnd' : (t.map Prod.fst).Nodup := hnd.2
    have hnone : alookup (t.filter p) kv.1 = none := by
      apply alookup_eq_none
      intro hmem
      obtain ⟨kv2, hin, hfst⟩ := List.mem_map.mp hmem
      exact hhead (hfst ▸ List.mem_map_of_mem _ (List.mem_of_mem_filter hin))
    cases i using Fin.cases with
    | zero =>
      show alookup ((kv :: t).filter p) kv.1 = if p kv then some kv.2 else none
      cases hp : p kv with
      | true => simp [List.filter_cons, hp, alookup_cons]
      | false =>
        simp only [List.filter_cons, hp, Bool.false_eq_true, if_false]
        exact hnone
    | succ j =>
      show alookup ((kv :: t).filter p) (t.get j).1 =
        if p (t.get j) then some (t.get j).2 else none
      have hmem : (t.get j).1 ∈ t.map Prod.fst :=
        List.mem_map_of_mem _ (by exact List.get_mem t j.1 j.2)
      have hne : kv.1 ≠ (t.get j).1 := fun he => hhead (he ▸ hmem)
      cases hp : p kv with
      | true =>
        simp only [List.filter_cons, hp, if_true, alookup_cons]
        rw [if_neg hne]
        exact ih hnd' j
      | false =>
        simp only [List.filter_cons, hp, Bool.false_eq_true, if_false]
        exact ih hnd' j

theorem filter_eq_zip_filter (forms : List (String × String)) (recs : List NRecord)
    (g : String → String)
    (hpt : List.Forall₂
      (fun (kv : String × String) (r : NRecord) => g kv.1 = r.value.getD "") forms recs) :
    forms.filter (fun kv => decide (kv.2 ≠ g kv.1)) =
      ((forms.zip recs).filter
        (fun pr => decide (pr.1.2 ≠ pr.2.value.getD ""))).map Prod.fst := by
  induction hpt with
  | nil => rfl
  | @cons a b l1 l2 hab _ ih =>
    simp only [List.zip_cons_cons, List.filter_cons, ← hab]
    by_cases hd : a.2 = g a.1
    · simpa [hd] using ih
    · simpa [hd] using ih

/-- C10 (amended): after a valid POST to edit_submission_data whose form keys
are the record keys in order (pairwise distinct), the saved
normalized_overrides map contains exactly the pairs whose submitted value
differs from the corresponding base record value (so a value resubmitted
equal to its base removes any previous override for that key), and applying
the saved overrides to the base records preserves each record key_path,
label_path and the record order, while the resulting values — with a null
stored value read as the empty string — equal the submitted values. -/
theorem edit_submission_data_overrides_exact (u : User) (s : SubmissionState) (dp : DataPost)
    (hown : s.borrowerId = u.id) (hfin : s.status ≠ Status.FINALIZED)
    (hrec : s.normalized_records ≠ []) (hvalid : dp.formsetValid = true)
    (hkeys : dp.forms.map Prod.fst =
      s.normalized_records.map (fun r => key_path_to_str r.key_path))
    (hnd : (s.normalized_records.map (fun r => key_path_to_str r.key_path)).Nodup) :
    (edit_submission_data u s Method.POST dp).2.normalized_overrides =
      ((dp.forms.zip s.normalized_records).filter
        (fun pr => decide (pr.1.2 ≠ pr.2.value.getD ""))).map Prod.fst ∧
    (apply_overrides_to_records s.normalized_records
        (edit_submission_data u s Method.POST dp).2.normalized_overrides).map
        (fun r => r.key_path) = s.normalized_records.map (fun r => r.key_path) ∧
    (apply_overrides_to_records s.normalized_records
        (edit_submission_data u s Method.POST dp).2.normalized_overrides).map
        (fun r => r.label_path) = s.normalized_records.map (fun r => r.label_path) ∧
    (apply_overrides_to_records s.normalized_records
        (edit_submission_data u s Method.POST dp).2.normalized_overrides).map
        (fun r => r.value.getD "") = dp.forms.map Prod.snd := by
  have hndb : (s.normalized_records.map (fun r => (baseEntry r).1)).Nodup := hnd
  have hndf : (dp.forms.map Prod.fst).Nodup := by rw [hkeys]; exact hnd
  have hlen : dp.forms.length = s.normalized_records.length := by
    have h := congrArg List.length hkeys
    simpa using h
  have hbase : s.normalized_records.foldl
      (fun m r => aset m (key_path_to_str r.key_path) (r.value.getD "")) [] =
      s.normalized_records.map baseEntry := by
    have hndb2 : ((s.normalized_records.map baseEntry).map Prod.fst).Nodup := by
      rw [List.map_map]
      exact hndb
    have h1 := foldl_aset_fresh (s.normalized_records.map baseEntry) [] hndb2
      (by intro kv _; simp)
    rw [List.foldl_map] at h1
    simpa [baseEntry] using h1
  have hno : (edit_submission_data u s Method.POST dp).2.normalized_overrides =
      dp.forms.filter
        (fun kv =>
          decide (kv.2 ≠ (alookup (s.normalized_records.map baseEntry) kv.1).getD "")) := by
    have hstep := foldl_aset_filter
      (fun kv : String × String =>
        kv.2 ≠ (alookup (s.normalized_records.map baseEntry) kv.1).getD "")
      dp.forms [] hndf (by intro kv _; simp)
    simp only [List.nil_append] at hstep
    simp only [edit_submission_data, rebuild_submission_fields, hown, hfin, hvalid,
      List.isEmpty_iff, hrec, ne_eq, not_true_eq_false, if_false, ite_false, ite_true,
      if_true, not_false_eq_true]
    simp only [hbase]
    rw [hstep]
  have hkey : ∀ (i : Nat) (h1 : i < dp.forms.length) (h2 : i < s.normalized_records.length),
      (dp.forms.get ⟨i, h1⟩).1 =
        key_path_to_str ((s.normalized_records.get ⟨i, h2⟩).key_path) := by
    intro i h1 h2
    have hi : i < (dp.forms.map Prod.fst).length := by simpa using h1
    have h := List.get_of_eq hkeys ⟨i, hi⟩
    simp only [List.get_map] at h
    exact h
  have hg : ∀ (i : Nat) (h1 : i < dp.forms.length) (h2 : i < s.normalized_records.length),
      (alookup (s.normalized_records.map baseEntry) (dp.forms.get ⟨i, h1⟩).1).getD "" =
        (s.normalized_records.get ⟨i, h2⟩).value.getD "" := by
    intro i h1 h2
    rw [hkey i h1 h2]
    have h := alookup_map_get baseEntry s.normalized_records hndb ⟨i, h2⟩
    rw [show (baseEntry (s.normalized_records.get ⟨i, h2⟩)).1 =
        key_path_to_str ((s.normalized_records.get ⟨i, h2⟩).key_path) from rfl] at h
    rw [h]
    rfl
  have hpt : List.Forall₂
      (fun (kv : String × String) (r : NRecord) =>
        (alookup (s.normalized_records.map baseEntry) kv.1).getD "" = r.value.getD "")
      dp.forms s.normalized_records := by
    rw [List.forall₂_iff_get]
    exact ⟨hlen, fun i h1 h2 => hg i h1 h2⟩
  refine ⟨?_, ?_, ?_, ?_⟩
  · rw [hno]
    exact filter_eq_zip_filter dp.forms s.normalized_records
      (fun k => (alookup (s.normalized_records.map baseEntry) k).getD "") hpt
  · rw [hno]
    unfold apply_overrides_to_records
    by_cases hni : (dp.forms.filter
        (fun kv =>
          decide (kv.2 ≠ (alookup (s.normalized_records.map baseEntry) kv.1).getD ""))).isEmpty = true
    · rw [if_pos hni]
    · rw [if_neg hni, List.map_map]
      rfl
  · rw [hno]
    unfold apply_overrides_to_records
    by_cases hni : (dp.forms.filter
        (fun kv =>
          decide (kv.2 ≠ (alookup (s.normalized_records.map baseEntry) kv.1).getD ""))).isEmpty = true
    · rw [if_pos hni]
    · rw [if_neg hni, List.map_map]
      rfl
  · rw [hno]
    unfold apply_overrides_to_records
    by_cases hni : (dp.forms.filter
        (fun kv =>
          decide (kv.2 ≠ (alookup (s.normalized_records.map baseEntry) kv.1).getD ""))).isEmpty = true
    · rw [if_pos hni]
      have hempty : dp.forms.filter
          (fun kv =>
            decide (kv.2 ≠ (alookup (s.normalized_records.map baseEntry) kv.1).getD "")) = [] :=
        List.isEmpty_iff.mp hni
      have hallP : ∀ kv ∈ dp.forms,
          kv.2 = (alookup (s.normalized_records.map baseEntry) kv.1).getD "" := by
        intro kv hkv
        have h := List.filter_eq_nil.mp hempty kv hkv
        simpa using h
      apply List.ext_get (by simp [hlen])
      intro n hn1 hn2
      have hf1 : n < dp.forms.length := by
        simp at hn2
        omega
      have hr1 : n < s.normalized_records.length := by
        simp at hn1
        omega
      simp only [List.get_map]
      have hv := hallP (dp.forms.get ⟨n, hf1⟩) (List.get_mem _ _ _)
      rw [hv, hg n hf1 hr1]
    · rw [if_neg hni]
      apply List.ext_get (by simp [hlen])
      intro n hn1 hn2
      have hf1 : n < dp.forms.length := by
        simp at hn2
        omega
      have hr1 : n < s.normalized_records.length := by
        simp at hn1
        omega
      simp only [List.get_map]
      rw [← hkey n hf1 hr1]
      have hl := alookup_filter_get dp.forms
        (fun kv =>
          decide (kv.2 ≠ (alookup (s.normalized_records.map baseEntry) kv.1).getD ""))
        hndf ⟨n, hf1⟩
      rw [hl]
      cases hPb : decide ((dp.forms.get ⟨n, hf1⟩).2 ≠
          (alookup (s.normalized_records.map baseEntry) (dp.forms.get ⟨n, hf1⟩).1).getD "") with
      | true => simp [hPb]
      | false =>
        simp only [hPb, Bool.false_eq_true, if_false]
        have heq : (dp.forms.get ⟨n, hf1⟩).2 =
            (alookup (s.normalized_records.map baseEntry) (dp.forms.get ⟨n, hf1⟩).1).getD "" :=
          not_not.mp (of_decide_eq_false hPb)
        rw [heq, hg n hf1 hr1]

/-- Counterexample for C10 as stated: with one base record whose stored
value is JSON null and a prior override, resubmitting the empty string does
remove the override, but applying the saved overrides to the base records
yields the record with its null value, which is not the submitted empty
string — so the claimed equality of values fails at this input. -/
theorem edit_submission_data_null_value_cx :
    (edit_submission_data borrowerUser cxSub Method.POST
        ⟨true, [("a", "")]⟩).2.normalized_overrides = [] ∧
    (apply_overrides_to_records cxSub.normalized_records
        (edit_submission_data borrowerUser cxSub Method.POST
          ⟨true, [("a", "")]⟩).2.normalized_overrides).map (fun r => r.value) = [none] ∧
    ([none] : List (Option String)) ≠ [some ""] :=
  ⟨by decide, by decide, by decide⟩

/-- Witness for C10 (amended) on a submission with two string-valued
records, one edited and one resubmitted unchanged: exactly the edited pair
is saved. -/
theorem edit_submission_data_overrides_exact_witness :
    (edit_submission_data borrowerUser dataSub Method.POST
        ⟨true, [("a", "9"), ("b", "2")]⟩).2.normalized_overrides =
      (((⟨true, [("a", "9"), ("b", "2")]⟩ : DataPost).forms.zip
          dataSub.normalized_records).filter
        (fun pr => decide (pr.1.2 ≠ pr.2.value.getD ""))).map Prod.fst :=
  (edit_submission_data_overrides_exact borrowerUser dataSub
      ⟨true, [("a", "9"), ("b", "2")]⟩ rfl (by decide) (by decide) rfl
      (by decide) (by decide)).1

end RenderBorrower
